import Mathlib

/-!
Verification of the Linkt outreach-planner pipeline.

This file is a shallow embedding of the signal-processing pipeline:
the data model (`Signal`, `Outreach`, `StoredSignal`, the key-value
store with its `signal:index` secondary index), the orchestrator
(`processEnrichedSignal`, `updateSignalIndex`, the agent `handler`),
the webhook resolution path (`processSignalWebhook`), the enrichment
mapping helpers (`normalizeStrength`, `resolveCompanyName`,
`mapLinktSignalToSignal`), the landing-page HTML extraction
(`extractHtmlFromOutput`), and the delete endpoint's store update
(`deleteSignalRoute`).

Effectful external calls (the LLM completion behind `generateOutreach`
and the sandbox run behind `generateLandingPage`) are modelled by their
observable outcome at the orchestrator's await points: an
`Except String Outreach` for the outreach step (a thrown error carries
its message) and an `Except String (Option String)` for the
landing-page step (which may throw, or resolve to HTML or to null).
Batches are modelled in their sequential interleaving, which is what
the claims about store-state evolution quantify over.
-/

namespace OutreachPlanner

/-- One detected business event, `Signal` in `types.ts`.  `details` is the
open metadata record attached by `mapLinktSignalToSignal`. -/
structure SignalDetails where
  icpId : String
  entityIds : List String
  references : Option (List String)
  deriving DecidableEq, Repr

structure Signal where
  id : String
  type : String
  summary : String
  company : String
  strength : String
  date : String
  source : Option String
  details : Option SignalDetails
  deriving DecidableEq, Repr

/-- A JSON field value as far as the mapping helpers inspect it:
`toText` keeps strings and numbers and rejects everything else. -/
inductive JsValue where
  | str (s : String)
  | num (n : Int)
  | other
  deriving DecidableEq, Repr

/-- The conventional keys of an entity's `data` record that the
company-resolution helpers read. -/
structure EntityData where
  name : Option JsValue
  company_name : Option JsValue
  deriving DecidableEq, Repr

structure LinktEntity where
  entity_type : String
  data : EntityData
  deriving DecidableEq, Repr

/-- The remote signal record returned by the Linkt API
(`Linkt.SignalResponse`), restricted to the fields the mapping reads. -/
structure LinktSignalResponse where
  id : String
  summary : String
  signal_type : Option String
  strength : Option String
  created_at : String
  icp_id : String
  entity_ids : List String
  references : Option (List String)
  deriving DecidableEq, Repr

structure EnrichedSignal where
  signal : Signal
  entities : List LinktEntity
  linktSignal : Option LinktSignalResponse
  deriving DecidableEq, Repr

structure Email where
  subject : String
  body : String
  deriving DecidableEq, Repr

structure Outreach where
  email : Email
  linkedin : String
  twitter : String
  callPoints : List String
  summary : String
  deriving DecidableEq, Repr

/-- The all-empty default `Outreach` shape written on the error path of
`processEnrichedSignal` (agent.ts lines 141-147). -/
def emptyOutreach : Outreach :=
  { email := { subject := "", body := "" }, linkedin := "", twitter := "",
    callPoints := [], summary := "" }

inductive Status where
  | pending
  | generated
  | error
  deriving DecidableEq, Repr

/-- The durable record written under key `signal:<id>`.  The TS type marks
`entities` optional but the orchestrator always populates it. -/
structure StoredSignal where
  signal : Signal
  entities : List LinktEntity
  linktSignal : Option LinktSignalResponse
  outreach : Outreach
  landingPageHtml : Option String
  generatedAt : String
  status : Status
  error : Option String
  deriving DecidableEq, Repr

/-- State of the `outreach-planner` KV namespace: the `signal:<id>` record
keys as an association list, and the `signal:index` key, `none` while the
key does not exist. -/
structure KVStore where
  records : List (String × StoredSignal)
  index : Option (List String)
  deriving DecidableEq, Repr

def getAssoc : List (String × StoredSignal) → String → Option StoredSignal
  | [], _ => none
  | (k', v) :: t, k => if k' = k then some v else getAssoc t k

def setAssoc : List (String × StoredSignal) → String → StoredSignal → List (String × StoredSignal)
  | [], k, v => [(k, v)]
  | (k', v') :: t, k, v => if k' = k then (k, v) :: t else (k', v') :: setAssoc t k v

def delAssoc : List (String × StoredSignal) → String → List (String × StoredSignal)
  | [], _ => []
  | (k', v) :: t, k => if k' = k then delAssoc t k else (k', v) :: delAssoc t k

/-- Key of a stored signal record, `signal:${id}`. -/
def recordKey (id : String) : String := "signal:" ++ id

def kvSetRecord (st : KVStore) (id : String) (v : StoredSignal) : KVStore :=
  { st with records := setAssoc st.records (recordKey id) v }

/-- The contents of the `signal:index` key, `[]` when it does not exist
(agent.ts line 169). -/
def indexList (st : KVStore) : List String := st.index.getD []

/-- `updateSignalIndex` (agent.ts lines 164-175): read the index, and only
when the ID is absent, unshift it and write the index back. -/
def updateSignalIndex (st : KVStore) (signalId : String) : KVStore :=
  let signalIds := indexList st
  if signalId ∈ signalIds then st
  else { st with index := some (signalId :: signalIds) }

structure SignalResult where
  success : Bool
  signalId : String
  message : String
  deriving DecidableEq, Repr

structure RunResult where
  success : Bool
  signalId : Option String
  message : String
  deriving DecidableEq, Repr

/-- `processEnrichedSignal` (agent.ts lines 89-162).  The `Promise.all` of
the two generation steps is observed through their outcomes: the
landing-page promise carries its own `.catch` to `null`, so the combined
await throws exactly when the outreach step throws, and then the landing
result is discarded. -/
def processEnrichedSignal (st : KVStore) (es : EnrichedSignal)
    (outreachResult : Except String Outreach)
    (landingResult : Except String (Option String))
    (now : String) : KVStore × SignalResult :=
  match outreachResult with
  | Except.ok outreach =>
      let landingPageHtml : Option String :=
        match landingResult with
        | Except.ok html => html
        | Except.error _ => none
      let stored : StoredSignal :=
        { signal := es.signal, entities := es.entities, linktSignal := es.linktSignal,
          outreach := outreach, landingPageHtml := landingPageHtml,
          generatedAt := now, status := Status.generated, error := none }
      let st1 := kvSetRecord st es.signal.id stored
      let st2 := updateSignalIndex st1 es.signal.id
      (st2, { success := true, signalId := es.signal.id,
              message := "Outreach generated for " ++ es.signal.company ++ " (" ++ es.signal.type ++ ")" })
  | Except.error msg =>
      let stored : StoredSignal :=
        { signal := es.signal, entities := es.entities, linktSignal := es.linktSignal,
          outreach := emptyOutreach, landingPageHtml := none,
          generatedAt := now, status := Status.error, error := some msg }
      let st1 := kvSetRecord st es.signal.id stored
      let st2 := updateSignalIndex st1 es.signal.id
      (st2, { success := false, signalId := es.signal.id,
              message := "Failed to generate outreach: " ++ msg })

/-- The record `processEnrichedSignal` writes under `signal:<id>`, read off
the two branches of its try/catch. -/
def writtenRecord (es : EnrichedSignal) (outreachResult : Except String Outreach)
    (landingResult : Except String (Option String)) (now : String) : StoredSignal :=
  match outreachResult with
  | Except.ok outreach =>
      { signal := es.signal, entities := es.entities, linktSignal := es.linktSignal,
        outreach := outreach,
        landingPageHtml := match landingResult with
          | Except.ok html => html
          | Except.error _ => none,
        generatedAt := now, status := Status.generated, error := none }
  | Except.error msg =>
      { signal := es.signal, entities := es.entities, linktSignal := es.linktSignal,
        outreach := emptyOutreach, landingPageHtml := none,
        generatedAt := now, status := Status.error, error := some msg }

/-- Per-signal generation environment: the observable outcome of the two
generation calls and the timestamp taken at record construction. -/
structure GenEnv where
  outreach : Except String Outreach
  landing : Except String (Option String)
  now : String

structure WebhookResources where
  entities_created : List String
  entities_updated : List String
  signals_created : List String
  deriving DecidableEq, Repr

/-- The webhook payload fields the pipeline reads (`LinktWebhookData`
restricted to `run_id` and `resources`). -/
structure LinktWebhookData where
  run_id : String
  resources : WebhookResources
  deriving DecidableEq, Repr

structure LinktWebhookPayload where
  event_type : String
  data : LinktWebhookData
  deriving DecidableEq, Repr

structure AgentInput where
  signal : Option Signal
  webhook : Option LinktWebhookPayload
  deriving Repr

/-- `processSignalWebhook` (services/linkt.ts): read
`data.resources.signals_created`; if empty, warn and return `[]`;
otherwise fetch every ID concurrently and keep, in input order, the
fetches that fulfilled with a non-null enriched signal.  The per-ID
fetch outcome is supplied by `fetchSignal`. -/
def processSignalWebhook (payload : LinktWebhookPayload)
    (fetchSignal : String → Option EnrichedSignal) : List EnrichedSignal :=
  let signalIds := payload.data.resources.signals_created
  if signalIds.isEmpty then []
  else signalIds.filterMap fetchSignal

/-- The one-element enriched batch built from an inline signal
(agent.ts lines 45-52). -/
def inlineEnriched (s : Signal) : EnrichedSignal :=
  { signal := s, entities := [], linktSignal := none }

/-- Input resolution of the handler (agent.ts lines 42-61). -/
def resolveSignals (input : AgentInput)
    (fetchSignal : String → Option EnrichedSignal) : List EnrichedSignal :=
  match input.signal with
  | some s => [inlineEnriched s]
  | none =>
      match input.webhook with
      | some payload => processSignalWebhook payload fetchSignal
      | none => []

/-- Sequential interleaving of the per-signal processing fan-out
(agent.ts lines 70-72), threading the store state and collecting the
per-signal results in batch order. -/
def processAll (st : KVStore) (sigs : List EnrichedSignal)
    (env : EnrichedSignal → GenEnv) : KVStore × List SignalResult :=
  match sigs with
  | [] => (st, [])
  | es :: rest =>
      let step := processEnrichedSignal st es (env es).outreach (env es).landing (env es).now
      let restOut := processAll step.1 rest env
      (restOut.1, step.2 :: restOut.2)

/-- Aggregation of per-signal results into the run result
(agent.ts lines 74-85). -/
def aggregateResults (results : List SignalResult) : RunResult :=
  let successful := results.filter (fun r => r.success)
  let failed := results.filter (fun r => !r.success)
  let firstSignalId := (successful.head?.map (fun r => r.signalId)).or
    (results.head?.map (fun r => r.signalId))
  let message :=
    if successful.length ≠ 0 then
      "Generated outreach for " ++ toString successful.length ++ " signal(s)"
    else
      "Failed to generate outreach for " ++ toString failed.length ++ " signal(s)"
  { success := successful.length > 0, signalId := firstSignalId, message := message }

/-- The agent handler (agent.ts lines 42-86): resolve the batch, return the
fixed empty-batch result without touching the store, otherwise process
every signal and aggregate. -/
def handler (st : KVStore) (input : AgentInput)
    (fetchSignal : String → Option EnrichedSignal)
    (env : EnrichedSignal → GenEnv) : KVStore × RunResult :=
  let enrichedSignals := resolveSignals input fetchSignal
  if enrichedSignals.isEmpty then
    (st, { success := false, signalId := none,
           message := "No signal data provided or retrieved" })
  else
    let out := processAll st enrichedSignals env
    (out.1, aggregateResults out.2)

/-- Store effect of `DELETE /signals/:id` (api/index.ts lines 235-249):
filter the ID out of the index when the index exists, then delete the
record key. -/
def deleteSignalRoute (st : KVStore) (id : String) : KVStore :=
  let st1 :=
    match st.index with
    | some ids => { st with index := some (ids.filter (fun sid => sid ≠ id)) }
    | none => st
  { st1 with records := delAssoc st1.records (recordKey id) }

/-- Store invariant of the spec: the index holds no duplicate IDs, and an ID
is in the index exactly when a record exists under its `signal:<id>` key. -/
def SignalStoreInv (st : KVStore) : Prop :=
  (indexList st).Nodup ∧
    ∀ id : String, id ∈ indexList st ↔ (getAssoc st.records (recordKey id)).isSome = true

/-- Model of JavaScript `String.prototype.toUpperCase` (character-wise
uppercasing). -/
def jsToUpper (s : String) : String := String.mk (s.data.map Char.toUpper)

/-- Model of JavaScript `String.prototype.trim` (strip whitespace from
both ends). -/
def jsTrim (s : String) : String :=
  String.mk (((s.data.dropWhile Char.isWhitespace).reverse.dropWhile Char.isWhitespace).reverse)

/-- `toText` (services/linkt.ts): a string is trimmed, a number is
rendered, anything else (missing value included) is `undefined`. -/
def toText : Option JsValue → Option String
  | some (JsValue.str s) => some (jsTrim s)
  | some (JsValue.num n) => some (toString n)
  | _ => none

/-- JavaScript `x || y` on an optional string: `x` unless it is absent or
the empty string. -/
def jsOrStr (a b : Option String) : Option String :=
  match a with
  | some s => if s = "" then b else some s
  | none => b

def DEFAULT_COMPANY_NAME : String := "Target Account"

/-- `normalizeStrength` (services/linkt.ts lines 393-404): a falsy input
(absent or empty) is MEDIUM; otherwise the uppercased value when it is
HIGH, MEDIUM or LOW, and MEDIUM for everything else. -/
def normalizeStrength : Option String → String
  | none => "MEDIUM"
  | some st =>
      if st = "" then "MEDIUM"
      else
        let normalized := jsToUpper st
        if normalized = "HIGH" ∨ normalized = "MEDIUM" ∨ normalized = "LOW" then normalized
        else "MEDIUM"

/-- The company-entity search of `resolveCompanyName`: first entity whose
`entity_type` is `company` or whose `data.company_name` is a non-empty
string. -/
def findCompanyEntity (entities : List LinktEntity) : Option LinktEntity :=
  entities.find? (fun entity =>
    entity.entity_type == "company" ||
      (match entity.data.company_name with
       | some (JsValue.str s) => decide (s.length > 0)
       | _ => false))

/-- The person-entity search of `resolveCompanyName`. -/
def findPersonSearch (entities : List LinktEntity) : Option LinktEntity :=
  entities.find? (fun entity => entity.entity_type == "person")

/-- `resolveCompanyName` (services/linkt.ts lines 376-391). -/
def resolveCompanyName (entities : List LinktEntity) : Option String :=
  let companyEntity := findCompanyEntity entities
  let personEntity := findPersonSearch entities
  jsOrStr (toText (companyEntity.bind (fun e => e.data.name)))
    (jsOrStr (toText (companyEntity.bind (fun e => e.data.company_name)))
      (jsOrStr (toText (personEntity.bind (fun e => e.data.company_name))) none))

/-- JavaScript truthiness filter on an optional string: an absent or empty
string is falsy. -/
def truthy (a : Option String) : Option String :=
  match a with
  | some s => if s = "" then none else some s
  | none => none

/-- The truthy text of the matched company entity's `name`. -/
def companyNameText (entities : List LinktEntity) : Option String :=
  truthy (toText ((findCompanyEntity entities).bind (fun e => e.data.name)))

/-- The truthy text of the matched company entity's `company_name`. -/
def companyCompanyNameText (entities : List LinktEntity) : Option String :=
  truthy (toText ((findCompanyEntity entities).bind (fun e => e.data.company_name)))

/-- The truthy text of the matched person entity's `company_name`. -/
def personCompanyNameText (entities : List LinktEntity) : Option String :=
  truthy (toText ((findPersonSearch entities).bind (fun e => e.data.company_name)))

/-- `mapLinktSignalToSignal` (services/linkt.ts lines 355-374). -/
def mapLinktSignalToSignal (linktSignal : LinktSignalResponse)
    (entities : List LinktEntity) : Signal :=
  let companyName := (resolveCompanyName entities).getD DEFAULT_COMPANY_NAME
  let strength := normalizeStrength linktSignal.strength
  let signalType := linktSignal.signal_type.getD "other"
  { id := linktSignal.id,
    type := signalType,
    summary := if linktSignal.summary = "" then
        "Signal detected for " ++ companyName ++ "." else linktSignal.summary,
    company := companyName,
    strength := strength,
    date := linktSignal.created_at,
    source := (linktSignal.references.getD []).head?,
    details := some { icpId := linktSignal.icp_id,
                      entityIds := linktSignal.entity_ids,
                      references := linktSignal.references } }

/-- Case-insensitive `pat` is a prefix of `s` (character-wise lowering,
as the `i` regex flag does on these ASCII literals). -/
def isPrefCI : List Char → List Char → Bool
  | [], _ => true
  | _ :: _, [] => false
  | p :: ps, c :: cs => (p.toLower == c.toLower) && isPrefCI ps cs

/-- All start indices, in increasing order, at which `pat` occurs
case-insensitively in `s`. -/
def occursIdx (pat s : List Char) : List Nat :=
  (List.range (s.length + 1)).filter (fun i => isPrefCI pat (s.drop i))

def doctypePat : List Char := "<!DOCTYPE html>".data

def htmlOpenPat : List Char := "<html".data

def htmlClosePat : List Char := "</html>".data

/-- Semantics of `s.match(/<opat>[\s\S]*<\/html>/i)` on the literal opening
patterns used by `extractHtmlFromOutput`: the match starts at the leftmost
occurrence of the opening literal that is followed (at or beyond its end)
by some `</html>` occurrence, and the greedy `[\s\S]*` makes it end at the
last such `</html>` occurrence.  Returns the start index and the start
index of the closing literal. -/
def ciMatch (opat s : List Char) : Option (Nat × Nat) :=
  (((occursIdx opat s).filter
      (fun i => (occursIdx htmlClosePat s).any (fun j => i + opat.length ≤ j))).head?).bind
    (fun i =>
      (((occursIdx htmlClosePat s).filter (fun j => i + opat.length ≤ j)).getLast?).map
        (fun j => (i, j)))

/-- The text of a match found by `ciMatch`, verbatim from the input. -/
def matchedText (s : List Char) (ij : Nat × Nat) : List Char :=
  (s.drop ij.1).take (ij.2 + htmlClosePat.length - ij.1)

/-- `extractHtmlFromOutput` on character lists
(landing-generator.ts lines 220-234): first the DOCTYPE-to-`</html>`
match returned verbatim, else the `<html`-to-`</html>` match with a
DOCTYPE line prepended, else absent. -/
def extractHtmlL (s : List Char) : Option (List Char) :=
  match ciMatch doctypePat s with
  | some ij => some (matchedText s ij)
  | none =>
      match ciMatch htmlOpenPat s with
      | some ij => some ("<!DOCTYPE html>\n".data ++ matchedText s ij)
      | none => none

/-- `extractHtmlFromOutput` (landing-generator.ts lines 220-234). -/
def extractHtmlFromOutput (output : String) : Option String :=
  (extractHtmlL output.data).map String.mk

/-! ### Concrete fixtures -/

def emptyStore : KVStore := { records := [], index := none }

def sampleSignal : Signal :=
  { id := "sig_001", type := "funding", summary := "Acme raised a Series B.",
    company := "Acme Corp", strength := "HIGH", date := "2026-01-28",
    source := none, details := none }

def sampleOutreach : Outreach :=
  { email := { subject := "subj", body := "body" }, linkedin := "li",
    twitter := "tw", callPoints := ["p1"], summary := "sum" }

def sampleGenEnv : GenEnv :=
  { outreach := Except.ok sampleOutreach, landing := Except.ok none,
    now := "2026-01-28T00:00:00Z" }

def failGenEnv : GenEnv :=
  { outreach := Except.error "No response from LLM", landing := Except.ok none,
    now := "2026-01-28T00:00:00Z" }

def emptyWebhookPayload : LinktWebhookPayload :=
  { event_type := "run.completed",
    data := { run_id := "run_1",
              resources := { entities_created := [], entities_updated := [],
                             signals_created := [] } } }

def noFetch : String → Option EnrichedSignal := fun _ => none

/-- A person entity whose `company_name` is a number, so the company-entity
search does not match it. -/
def samplePersonEntity : LinktEntity :=
  { entity_type := "person",
    data := { name := some (JsValue.str "Alice"), company_name := some (JsValue.num 42) } }

def sampleLinktSignal : LinktSignalResponse :=
  { id := "sig_9", summary := "", signal_type := none, strength := some "High",
    created_at := "2026-01-01", icp_id := "icp_1", entity_ids := [], references := none }

/-- A run input carrying only an inline signal. -/
def inlineInput (s : Signal) : AgentInput := { signal := some s, webhook := none }

/-- `n` sequential invocations of the pipeline with the same inline
signal. -/
def iterateInline (s : Signal) (fetchSignal : String → Option EnrichedSignal)
    (env : EnrichedSignal → GenEnv) : Nat → KVStore → KVStore
  | 0, st => st
  | n + 1, st => iterateInline s fetchSignal env n (handler st (inlineInput s) fetchSignal env).1

/-! ### Basic store lemmas -/

theorem getAssoc_setAssoc_self (l : List (String × StoredSignal)) (k : String)
    (v : StoredSignal) : getAssoc (setAssoc l k v) k = some v := by
  induction l with
  | nil => simp [setAssoc, getAssoc]
  | cons hd t ih =>
      obtain ⟨k', v'⟩ := hd
      by_cases h : k' = k
      · simp [setAssoc, getAssoc, h]
      · simp [setAssoc, getAssoc, h, ih]

theorem getAssoc_setAssoc_ne (l : List (String × StoredSignal)) (k k' : String)
    (v : StoredSignal) (h : k' ≠ k) :
    getAssoc (setAssoc l k v) k' = getAssoc l k' := by
  have hkk : k ≠ k' := Ne.symm h
  induction l with
  | nil => simp [setAssoc, getAssoc, hkk]
  | cons hd t ih =>
      obtain ⟨k0, v0⟩ := hd
      by_cases hk : k0 = k
      · subst hk
        simp [setAssoc, getAssoc, hkk]
      · by_cases hk' : k0 = k'
        · simp [setAssoc, getAssoc, hk, hk', h, hkk]
        · simp [setAssoc, getAssoc, hk, hk', h, hkk, ih]

theorem getAssoc_delAssoc_self (l : List (String × StoredSignal)) (k : String) :
    getAssoc (delAssoc l k) k = none := by
  induction l with
  | nil => simp [delAssoc, getAssoc]
  | cons hd t ih =>
      obtain ⟨k', v'⟩ := hd
      by_cases h : k' = k
      · simp [delAssoc, h, ih]
      · simp [delAssoc, getAssoc, h, ih]

theorem getAssoc_delAssoc_ne (l : List (String × StoredSignal)) (k k' : String)
    (h : k' ≠ k) : getAssoc (delAssoc l k) k' = getAssoc l k' := by
  have hkk : k ≠ k' := Ne.symm h
  induction l with
  | nil => simp [delAssoc, getAssoc]
  | cons hd t ih =>
      obtain ⟨k0, v0⟩ := hd
      by_cases hk : k0 = k
      · subst hk
        simp [delAssoc, getAssoc, hkk, ih]
      · by_cases hk' : k0 = k'
        · simp [delAssoc, getAssoc, hk, hk', h, ih]
        · simp [delAssoc, getAssoc, hk, hk', h, ih]

theorem recordKey_inj (a b : String) (h : recordKey a = recordKey b) : a = b := by
  have h2 : (recordKey a).data = (recordKey b).data := by rw [h]
  simp only [recordKey, String.data_append] at h2
  exact String.ext (List.append_cancel_left h2)

theorem records_updateSignalIndex (st : KVStore) (id : String) :
    (updateSignalIndex st id).records = st.records := by
  by_cases h : id ∈ indexList st <;> simp [updateSignalIndex, h]

theorem indexList_updateSignalIndex (st : KVStore) (id : String) :
    indexList (updateSignalIndex st id)
      = if id ∈ indexList st then indexList st else id :: indexList st := by
  unfold updateSignalIndex
  by_cases h : id ∈ indexList st
  · simp only [indexList] at h ⊢
    simp [h]
  · simp only [indexList] at h ⊢
    simp [h]

theorem mem_indexList_updateSignalIndex (st : KVStore) (id : String) :
    id ∈ indexList (updateSignalIndex st id) := by
  rw [indexList_updateSignalIndex]
  by_cases h : id ∈ indexList st <;> simp [h]

theorem index_setRecord (st : KVStore) (id : String) (v : StoredSignal) :
    (kvSetRecord st id v).index = st.index := rfl

theorem indexList_kvSetRecord (st : KVStore) (id : String) (v : StoredSignal) :
    indexList (kvSetRecord st id v) = indexList st := rfl

/-- `processEnrichedSignal` in both branches writes `writtenRecord` under
the signal's key and then updates the index. -/
theorem processEnrichedSignal_fst (st : KVStore) (es : EnrichedSignal)
    (o : Except String Outreach) (l : Except String (Option String)) (now : String) :
    (processEnrichedSignal st es o l now).1
      = updateSignalIndex (kvSetRecord st es.signal.id (writtenRecord es o l now))
          es.signal.id := by
  cases o <;> rfl

theorem record_written (st : KVStore) (es : EnrichedSignal)
    (o : Except String Outreach) (l : Except String (Option String)) (now : String) :
    getAssoc (processEnrichedSignal st es o l now).1.records (recordKey es.signal.id)
      = some (writtenRecord es o l now) := by
  rw [processEnrichedSignal_fst, records_updateSignalIndex]
  exact getAssoc_setAssoc_self _ _ _

/-! ### Claim theorems -/

/-- Claim C1: when the outreach generation step throws, the orchestrator
still writes a `StoredSignal` under `signal:<id>` whose status is `error`,
whose outreach is the all-empty default shape (empty email subject and
body, empty linkedin, empty twitter, empty callPoints, empty summary) and
whose `error` field is the thrown error's message; the ID is still in the
index afterwards and the per-signal result has `success = false`. -/
theorem claim_C1 (st : KVStore) (es : EnrichedSignal)
    (landingResult : Except String (Option String)) (msg now : String) :
    getAssoc (processEnrichedSignal st es (Except.error msg) landingResult now).1.records
        (recordKey es.signal.id)
      = some { signal := es.signal, entities := es.entities, linktSignal := es.linktSignal,
               outreach := { email := { subject := "", body := "" }, linkedin := "",
                             twitter := "", callPoints := [], summary := "" },
               landingPageHtml := none, generatedAt := now,
               status := Status.error, error := some msg }
    ∧ es.signal.id ∈ indexList (processEnrichedSignal st es (Except.error msg) landingResult now).1
    ∧ (processEnrichedSignal st es (Except.error msg) landingResult now).2.success = false := by
  refine ⟨?_, ?_, rfl⟩
  · rw [record_written]
    rfl
  · rw [processEnrichedSignal_fst]
    exact mem_indexList_updateSignalIndex _ _

/-- Claim C2: once outreach generation succeeds, no landing-page outcome can
fail the signal (the per-signal result is successful for every landing
outcome, a thrown landing error included), and on a landing failure —
thrown error or resolved `null` — the stored record has status `generated`
with `landingPageHtml` absent; only an outreach error makes the per-signal
result fail. -/
theorem claim_C2 (st : KVStore) (es : EnrichedSignal) (o : Outreach) (e now : String) :
    (∀ landingResult,
        (processEnrichedSignal st es (Except.ok o) landingResult now).2.success = true)
    ∧ getAssoc (processEnrichedSignal st es (Except.ok o) (Except.error e) now).1.records
        (recordKey es.signal.id)
      = some { signal := es.signal, entities := es.entities, linktSignal := es.linktSignal,
               outreach := o, landingPageHtml := none, generatedAt := now,
               status := Status.generated, error := none }
    ∧ getAssoc (processEnrichedSignal st es (Except.ok o) (Except.ok none) now).1.records
        (recordKey es.signal.id)
      = some { signal := es.signal, entities := es.entities, linktSignal := es.linktSignal,
               outreach := o, landingPageHtml := none, generatedAt := now,
               status := Status.generated, error := none }
    ∧ (∀ msg landingResult,
        (processEnrichedSignal st es (Except.error msg) landingResult now).2.success = false) := by
  refine ⟨fun _ => rfl, ?_, ?_, fun _ _ => rfl⟩
  · rw [record_written]
    rfl
  · rw [record_written]
    rfl

/-- Claim C10: the record written by the orchestrator never carries HTML
together with status `error`: a status-`error` record has no
`landingPageHtml` and a record with `landingPageHtml` present has status
`generated`; in particular when the outreach step throws while the
landing step had already resolved to HTML, that HTML is discarded. -/
theorem claim_C10 (st : KVStore) (es : EnrichedSignal)
    (outreachResult : Except String Outreach)
    (landingResult : Except String (Option String)) (now : String) :
    (∃ r, getAssoc (processEnrichedSignal st es outreachResult landingResult now).1.records
            (recordKey es.signal.id) = some r
        ∧ (r.status = Status.error → r.landingPageHtml = none)
        ∧ (r.landingPageHtml.isSome = true → r.status = Status.generated))
    ∧ ∀ (msg html : String),
        (writtenRecord es (Except.error msg) (Except.ok (some html)) now).landingPageHtml = none
        ∧ (writtenRecord es (Except.error msg) (Except.ok (some html)) now).status
            = Status.error := by
  refine ⟨⟨writtenRecord es outreachResult landingResult now,
           record_written st es outreachResult landingResult now, ?_, ?_⟩,
          fun _ _ => ⟨rfl, rfl⟩⟩
  · cases outreachResult with
    | ok o => intro h; exact absurd h (by simp [writtenRecord])
    | error msg => intro _; rfl
  · cases outreachResult with
    | ok o => intro _; rfl
    | error msg => intro h; simp [writtenRecord] at h

/-- Witness for claim C10 at a concrete signal, thrown outreach error and
already-produced landing HTML. -/
theorem claim_C10_witness :
    (writtenRecord (inlineEnriched sampleSignal) (Except.error "boom")
        (Except.ok (some "<html></html>")) "t").landingPageHtml = none
    ∧ (writtenRecord (inlineEnriched sampleSignal) (Except.error "boom")
        (Except.ok (some "<html></html>")) "t").status = Status.error :=
  (claim_C10 emptyStore (inlineEnriched sampleSignal) (Except.error "boom")
    (Except.ok (some "<html></html>")) "t").2 "boom" "<html></html>"

/-- Claim C6: a webhook payload with an empty `signals_created` list and no
inline signal makes the pipeline return `success = false` with message
exactly `No signal data provided or retrieved`, and the store state —
record keys and index key alike — is returned unchanged. -/
theorem claim_C6 (st : KVStore) (payload : LinktWebhookPayload)
    (fetchSignal : String → Option EnrichedSignal) (env : EnrichedSignal → GenEnv)
    (h : payload.data.resources.signals_created = []) :
    handler st { signal := none, webhook := some payload } fetchSignal env
      = (st, { success := false, signalId := none,
               message := "No signal data provided or retrieved" }) := by
  simp [handler, resolveSignals, processSignalWebhook, h]

/-- Witness for claim C6 on a concrete payload whose `signals_created` is
empty. -/
theorem claim_C6_witness :
    handler emptyStore { signal := none, webhook := some emptyWebhookPayload } noFetch
        (fun _ => sampleGenEnv)
      = (emptyStore, { success := false, signalId := none,
                       message := "No signal data provided or retrieved" }) :=
  claim_C6 emptyStore emptyWebhookPayload noFetch (fun _ => sampleGenEnv) rfl

/-- Claim C9: for a non-empty resolved batch the handler's result is the
aggregation of the per-signal results, and aggregation satisfies: overall
success iff at least one per-signal result succeeded; when some succeeded
the message reports the success count and the result carries the first
succeeded signal's ID; when none succeeded the result is unsuccessful and
the message reports the failure count. -/
theorem claim_C9 (results : List SignalResult) (st : KVStore) (input : AgentInput)
    (fetchSignal : String → Option EnrichedSignal) (env : EnrichedSignal → GenEnv)
    (h : resolveSignals input fetchSignal ≠ []) :
    (handler st input fetchSignal env).2
        = aggregateResults (processAll st (resolveSignals input fetchSignal) env).2
    ∧ ((aggregateResults results).success = true ↔ ∃ r ∈ results, r.success = true)
    ∧ ((∃ r ∈ results, r.success = true) →
        (aggregateResults results).message
            = "Generated outreach for "
              ++ toString (results.filter (fun r => r.success)).length ++ " signal(s)"
        ∧ (aggregateResults results).signalId
            = ((results.filter (fun r => r.success)).head?).map (fun r => r.signalId))
    ∧ ((∀ r ∈ results, r.success = false) →
        (aggregateResults results).success = false
        ∧ (aggregateResults results).message
            = "Failed to generate outreach for "
              ++ toString (results.filter (fun r => !r.success)).length ++ " signal(s)") := by
  refine ⟨?_, ?_, ?_, ?_⟩
  · simp [handler, h]
  · simp only [aggregateResults, gt_iff_lt, List.length_pos, decide_eq_true_eq]
    constructor
    · intro hne
      obtain ⟨r, hr⟩ := List.exists_mem_of_ne_nil _ hne
      have := List.mem_filter.mp hr
      exact ⟨r, this.1, this.2⟩
    · rintro ⟨r, hr, hsucc⟩
      exact List.ne_nil_of_mem (List.mem_filter.mpr ⟨hr, hsucc⟩)
  · rintro ⟨r, hr, hsucc⟩
    have hne : results.filter (fun r => r.success) ≠ [] :=
      List.ne_nil_of_mem (List.mem_filter.mpr ⟨hr, hsucc⟩)
    obtain ⟨a, t, hat⟩ := List.exists_cons_of_ne_nil hne
    constructor
    · simp [aggregateResults, hat]
    · simp [aggregateResults, hat, Option.or]
  · intro hall
    have hnil : results.filter (fun r => r.success) = [] :=
      List.filter_eq_nil_iff.mpr (fun r hr => by simp [hall r hr])
    constructor
    · simp [aggregateResults, hnil]
    · simp [aggregateResults, hnil]

/-- Witness for claim C9: the handler on a concrete inline signal aggregates
the per-signal results. -/
theorem claim_C9_witness :
    (handler emptyStore { signal := some sampleSignal, webhook := none } noFetch
        (fun _ => sampleGenEnv)).2
      = aggregateResults (processAll emptyStore
          (resolveSignals { signal := some sampleSignal, webhook := none } noFetch)
          (fun _ => sampleGenEnv)).2 :=
  (claim_C9 [] emptyStore { signal := some sampleSignal, webhook := none } noFetch
    (fun _ => sampleGenEnv) (by simp [resolveSignals])).1

/-- Claim C7: the index invariant — no duplicate IDs, and an ID is indexed
iff its `signal:<id>` record exists — is preserved by every orchestrator
write (either branch of `processEnrichedSignal`, run sequentially) and by
the delete endpoint. -/
theorem claim_C7 (st : KVStore) (es : EnrichedSignal)
    (outreachResult : Except String Outreach)
    (landingResult : Except String (Option String)) (now : String) (delId : String)
    (h : SignalStoreInv st) :
    SignalStoreInv (processEnrichedSignal st es outreachResult landingResult now).1
    ∧ SignalStoreInv (deleteSignalRoute st delId) := by
  obtain ⟨hnd, hmem⟩ := h
  constructor
  · rw [processEnrichedSignal_fst]
    set sid := es.signal.id with hsid
    set st1 := kvSetRecord st sid (writtenRecord es outreachResult landingResult now) with hst1
    have hidx1 : indexList st1 = indexList st := rfl
    have hrec1 : st1.records = setAssoc st.records (recordKey sid)
        (writtenRecord es outreachResult landingResult now) := rfl
    constructor
    · rw [indexList_updateSignalIndex, hidx1]
      by_cases hin : sid ∈ indexList st
      · simp [hin, hnd]
      · simp [hin, hnd]
    · intro i
      rw [indexList_updateSignalIndex, records_updateSignalIndex, hidx1, hrec1]
      by_cases hid : i = sid
      · subst hid
        by_cases hin : sid ∈ indexList st
        · simp [hin, getAssoc_setAssoc_self]
        · simp [hin, getAssoc_setAssoc_self]
      · have hkey : recordKey i ≠ recordKey sid := fun hk => hid (recordKey_inj _ _ hk)
        rw [getAssoc_setAssoc_ne _ _ _ _ hkey]
        by_cases hin : sid ∈ indexList st
        · simp [hin, hmem i]
        · simp [hin, hid, hmem i]
  · unfold deleteSignalRoute
    cases hix : st.index with
    | none =>
        have hempty : indexList st = [] := by simp [indexList, hix]
        constructor
        · simp [indexList, hix]
        · intro i
          simp only [indexList, hix, Option.getD_none, List.not_mem_nil, false_iff]
          by_cases hid : i = delId
          · subst hid
            simp [getAssoc_delAssoc_self]
          · have hkey : recordKey i ≠ recordKey delId := fun hk => hid (recordKey_inj _ _ hk)
            rw [getAssoc_delAssoc_ne _ _ _ hkey]
            have hi := (hmem i).not
            simp [hempty] at hi
            simp [hi]
    | some ids =>
        have hids : indexList st = ids := by simp [indexList, hix]
        constructor
        · simp only [indexList, Option.getD_some]
          exact (hids ▸ hnd).filter _
        · intro i
          simp only [indexList, Option.getD_some]
          by_cases hid : i = delId
          · subst hid
            simp [getAssoc_delAssoc_self, List.mem_filter]
          · have hkey : recordKey i ≠ recordKey delId := fun hk => hid (recordKey_inj _ _ hk)
            rw [getAssoc_delAssoc_ne _ _ _ hkey]
            have hm := hmem i
            rw [hids] at hm
            simp [List.mem_filter, hid, hm]

/-- The empty store satisfies the index invariant. -/
theorem signalStoreInv_empty : SignalStoreInv emptyStore := by
  constructor
  · simp [indexList, emptyStore]
  · intro i
    simp [indexList, emptyStore, getAssoc]

/-- Witness for claim C7: the invariant holds after a write and after a
delete starting from the (invariant-satisfying) empty store. -/
theorem claim_C7_witness :
    SignalStoreInv (processEnrichedSignal emptyStore (inlineEnriched sampleSignal)
        (Except.ok sampleOutreach) (Except.ok none) "t").1
    ∧ SignalStoreInv (deleteSignalRoute emptyStore "sig_001") :=
  claim_C7 emptyStore (inlineEnriched sampleSignal) (Except.ok sampleOutreach)
    (Except.ok none) "t" "sig_001" signalStoreInv_empty

/-- On an inline-signal input the handler's final store is the one produced
by processing that single enriched signal. -/
theorem handler_inline (st : KVStore) (s : Signal)
    (fetchSignal : String → Option EnrichedSignal) (env : EnrichedSignal → GenEnv) :
    (handler st (inlineInput s) fetchSignal env).1
      = (processEnrichedSignal st (inlineEnriched s) (env (inlineEnriched s)).outreach
          (env (inlineEnriched s)).landing (env (inlineEnriched s)).now).1 := by
  simp [handler, resolveSignals, inlineInput, processAll]

/-- An inline invocation whose signal is already indexed leaves the index
unchanged. -/
theorem handler_inline_indexList_mem (st : KVStore) (s : Signal)
    (fetchSignal : String → Option EnrichedSignal) (env : EnrichedSignal → GenEnv)
    (h : s.id ∈ indexList st) :
    indexList (handler st (inlineInput s) fetchSignal env).1 = indexList st := by
  rw [handler_inline, processEnrichedSignal_fst, indexList_updateSignalIndex,
    indexList_kvSetRecord]
  simp [inlineEnriched, h]

theorem iterateInline_indexList (s : Signal)
    (fetchSignal : String → Option EnrichedSignal) (env : EnrichedSignal → GenEnv) :
    ∀ (n : Nat) (st : KVStore), s.id ∈ indexList st →
      indexList (iterateInline s fetchSignal env n st) = indexList st := by
  intro n
  induction n with
  | zero => intro st _; rfl
  | succ m ih =>
      intro st hmem
      have hstep := handler_inline_indexList_mem st s fetchSignal env hmem
      have hmem2 : s.id ∈ indexList (handler st (inlineInput s) fetchSignal env).1 := by
        rw [hstep]; exact hmem
      calc indexList (iterateInline s fetchSignal env (m + 1) st)
          = indexList (iterateInline s fetchSignal env m
              (handler st (inlineInput s) fetchSignal env).1) := rfl
        _ = indexList (handler st (inlineInput s) fetchSignal env).1 := ih _ hmem2
        _ = indexList st := hstep

/-- Claim C8: two sequential inline invocations for the same signal both
write the complete `StoredSignal` under `signal:<id>` — the record found
after the second invocation is determined solely by the second
invocation's generation outcomes, a full overwrite, not a merge — and
the index holds the ID exactly once after the second invocation and
after any further number of invocations. -/
theorem claim_C8 (st0 : KVStore) (s : Signal)
    (f1 f2 : String → Option EnrichedSignal) (g1 g2 : EnrichedSignal → GenEnv)
    (h : s.id ∉ indexList st0) :
    getAssoc (handler st0 (inlineInput s) f1 g1).1.records (recordKey s.id)
      = some (writtenRecord (inlineEnriched s) (g1 (inlineEnriched s)).outreach
          (g1 (inlineEnriched s)).landing (g1 (inlineEnriched s)).now)
    ∧ getAssoc (handler (handler st0 (inlineInput s) f1 g1).1 (inlineInput s) f2 g2).1.records
        (recordKey s.id)
      = some (writtenRecord (inlineEnriched s) (g2 (inlineEnriched s)).outreach
          (g2 (inlineEnriched s)).landing (g2 (inlineEnriched s)).now)
    ∧ (indexList (handler (handler st0 (inlineInput s) f1 g1).1
          (inlineInput s) f2 g2).1).count s.id = 1
    ∧ ∀ n : Nat,
        (indexList (iterateInline s f2 g2 n (handler st0 (inlineInput s) f1 g1).1)).count s.id
          = 1 := by
  have hmem1 : s.id ∈ indexList (handler st0 (inlineInput s) f1 g1).1 := by
    rw [handler_inline, processEnrichedSignal_fst]
    exact mem_indexList_updateSignalIndex _ _
  have hidx1 : indexList (handler st0 (inlineInput s) f1 g1).1 = s.id :: indexList st0 := by
    rw [handler_inline, processEnrichedSignal_fst, indexList_updateSignalIndex,
      indexList_kvSetRecord]
    simp [inlineEnriched, h]
  have hcount1 : (indexList (handler st0 (inlineInput s) f1 g1).1).count s.id = 1 := by
    rw [hidx1]
    simp [List.count_eq_zero.mpr h]
  refine ⟨?_, ?_, ?_, ?_⟩
  · rw [handler_inline]
    exact record_written _ _ _ _ _
  · rw [handler_inline]
    exact record_written _ _ _ _ _
  · rw [handler_inline_indexList_mem _ _ _ _ hmem1]
    exact hcount1
  · intro n
    rw [iterateInline_indexList s f2 g2 n _ hmem1]
    exact hcount1

/-- Witness for claim C8: starting from the empty store, after two inline
invocations for the sample signal the index holds its ID exactly once. -/
theorem claim_C8_witness :
    (indexList (handler (handler emptyStore (inlineInput sampleSignal) noFetch
        (fun _ => sampleGenEnv)).1 (inlineInput sampleSignal) noFetch
        (fun _ => failGenEnv)).1).count sampleSignal.id = 1 :=
  (claim_C8 emptyStore sampleSignal noFetch noFetch (fun _ => sampleGenEnv)
    (fun _ => failGenEnv) (by simp [indexList, emptyStore])).2.2.1

/-- Claim C3: strength normalization maps an absent value to MEDIUM, a value
whose uppercase form is HIGH, MEDIUM or LOW to that uppercased form, and
every other value to MEDIUM; the result is always one of the three. -/
theorem claim_C3 (v : String) :
    normalizeStrength none = "MEDIUM"
    ∧ ((jsToUpper v = "HIGH" ∨ jsToUpper v = "MEDIUM" ∨ jsToUpper v = "LOW") →
        normalizeStrength (some v) = jsToUpper v)
    ∧ (¬(jsToUpper v = "HIGH" ∨ jsToUpper v = "MEDIUM" ∨ jsToUpper v = "LOW") →
        normalizeStrength (some v) = "MEDIUM")
    ∧ ∀ strength : Option String,
        normalizeStrength strength = "HIGH" ∨ normalizeStrength strength = "MEDIUM"
          ∨ normalizeStrength strength = "LOW" := by
  refine ⟨rfl, ?_, ?_, ?_⟩
  · intro hcond
    by_cases hv : v = ""
    · subst hv
      rw [show jsToUpper "" = "" from rfl] at hcond
      rcases hcond with hc | hc | hc <;> exact absurd hc (by decide)
    · show (if v = "" then "MEDIUM"
          else if jsToUpper v = "HIGH" ∨ jsToUpper v = "MEDIUM" ∨ jsToUpper v = "LOW"
            then jsToUpper v else "MEDIUM") = jsToUpper v
      rw [if_neg hv, if_pos hcond]
  · intro hcond
    by_cases hv : v = ""
    · subst hv
      rfl
    · show (if v = "" then "MEDIUM"
          else if jsToUpper v = "HIGH" ∨ jsToUpper v = "MEDIUM" ∨ jsToUpper v = "LOW"
            then jsToUpper v else "MEDIUM") = "MEDIUM"
      rw [if_neg hv, if_neg hcond]
  · intro strength
    cases strength with
    | none => exact Or.inr (Or.inl rfl)
    | some w =>
        by_cases hw : w = ""
        · subst hw
          exact Or.inr (Or.inl rfl)
        · by_cases hcond : jsToUpper w = "HIGH" ∨ jsToUpper w = "MEDIUM" ∨ jsToUpper w = "LOW"
          · have hval : normalizeStrength (some w) = jsToUpper w := by
              show (if w = "" then "MEDIUM"
                  else if jsToUpper w = "HIGH" ∨ jsToUpper w = "MEDIUM" ∨ jsToUpper w = "LOW"
                    then jsToUpper w else "MEDIUM") = jsToUpper w
              rw [if_neg hw, if_pos hcond]
            rw [hval]
            exact hcond
          · have hval : normalizeStrength (some w) = "MEDIUM" := by
              show (if w = "" then "MEDIUM"
                  else if jsToUpper w = "HIGH" ∨ jsToUpper w = "MEDIUM" ∨ jsToUpper w = "LOW"
                    then jsToUpper w else "MEDIUM") = "MEDIUM"
              rw [if_neg hw, if_neg hcond]
            rw [hval]
            exact Or.inr (Or.inl rfl)

/-- Witness for claim C3 at the concrete inputs `high` and `odd`. -/
theorem claim_C3_witness :
    normalizeStrength (some "high") = jsToUpper "high"
    ∧ normalizeStrength (some "odd") = "MEDIUM" :=
  ⟨(claim_C3 "high").2.1 (Or.inl (by decide)),
   (claim_C3 "odd").2.2.1 (by decide)⟩

theorem jsOrStr_eq (a b : Option String) : jsOrStr a b = (truthy a).or b := by
  cases a with
  | none => simp [jsOrStr, truthy]
  | some s =>
      by_cases hs : s = "" <;> simp [jsOrStr, truthy, hs]

theorem resolveCompanyName_eq (entities : List LinktEntity) :
    resolveCompanyName entities
      = (companyNameText entities).or
          ((companyCompanyNameText entities).or (personCompanyNameText entities)) := by
  unfold resolveCompanyName companyNameText companyCompanyNameText personCompanyNameText
  simp [jsOrStr_eq]

theorem mapped_company_eq (ls : LinktSignalResponse) (entities : List LinktEntity) :
    (mapLinktSignalToSignal ls entities).company
      = (resolveCompanyName entities).getD DEFAULT_COMPANY_NAME := rfl

/-- Claim C4: the mapped signal's company name follows the precedence
matched-company-entity `name`, else that entity's `company_name`, else the
matched person entity's `company_name`, else the placeholder
`Target Account`; when the company-entity search matches nothing the
resolution is exactly the person fallback with the placeholder default,
and the company field is always a defined string. -/
theorem claim_C4 (entities : List LinktEntity) (ls : LinktSignalResponse) :
    (∀ s, companyNameText entities = some s →
        (mapLinktSignalToSignal ls entities).company = s)
    ∧ (companyNameText entities = none →
        ∀ s, companyCompanyNameText entities = some s →
          (mapLinktSignalToSignal ls entities).company = s)
    ∧ (companyNameText entities = none → companyCompanyNameText entities = none →
        ∀ s, personCompanyNameText entities = some s →
          (mapLinktSignalToSignal ls entities).company = s)
    ∧ (companyNameText entities = none → companyCompanyNameText entities = none →
        personCompanyNameText entities = none →
        (mapLinktSignalToSignal ls entities).company = "Target Account")
    ∧ (findCompanyEntity entities = none →
        (mapLinktSignalToSignal ls entities).company
          = (personCompanyNameText entities).getD "Target Account") := by
  refine ⟨?_, ?_, ?_, ?_, ?_⟩
  · intro s hs
    rw [mapped_company_eq, resolveCompanyName_eq, hs]
    rfl
  · intro hn s hs
    rw [mapped_company_eq, resolveCompanyName_eq, hn, hs]
    rfl
  · intro hn hc s hs
    rw [mapped_company_eq, resolveCompanyName_eq, hn, hc, hs]
    rfl
  · intro hn hc hp
    rw [mapped_company_eq, resolveCompanyName_eq, hn, hc, hp]
    rfl
  · intro hnone
    have hn : companyNameText entities = none := by
      simp [companyNameText, hnone, toText, truthy]
    have hc : companyCompanyNameText entities = none := by
      simp [companyCompanyNameText, hnone, toText, truthy]
    rw [mapped_company_eq, resolveCompanyName_eq, hn, hc]
    cases hp : personCompanyNameText entities <;> rfl

/-- Witness for claim C4: a lone person entity with a numeric
`company_name` — no company entity matches and the person fallback
resolves the name. -/
theorem claim_C4_witness :
    (mapLinktSignalToSignal sampleLinktSignal [samplePersonEntity]).company
      = (personCompanyNameText [samplePersonEntity]).getD "Target Account" :=
  (claim_C4 [samplePersonEntity] sampleLinktSignal).2.2.2.2 (by decide)

theorem mem_of_getLast?_eq_some {α : Type} {l : List α} {a : α}
    (h : l.getLast? = some a) : a ∈ l := by
  obtain ⟨hne, heq⟩ := List.mem_getLast?_eq_getLast (l := l) (x := a) (Option.mem_def.mpr h)
  rw [heq]
  exact List.getLast_mem hne

theorem mem_occursIdx (pat s : List Char) (i : Nat) (h : i ∈ occursIdx pat s) :
    isPrefCI pat (s.drop i) = true := by
  unfold occursIdx at h
  exact (List.mem_filter.mp h).2

theorem ciMatch_none_of_no_open (opat s : List Char) (h : occursIdx opat s = []) :
    ciMatch opat s = none := by
  unfold ciMatch
  rw [h]
  rfl

theorem ciMatch_spec (opat s : List Char) (i j : Nat) (h : ciMatch opat s = some (i, j)) :
    isPrefCI opat (s.drop i) = true ∧ isPrefCI htmlClosePat (s.drop j) = true
      ∧ i + opat.length ≤ j := by
  unfold ciMatch at h
  cases hh : ((occursIdx opat s).filter
      (fun i => (occursIdx htmlClosePat s).any (fun j => i + opat.length ≤ j))).head? with
  | none =>
      rw [hh, Option.none_bind] at h
      cases h
  | some iv =>
      rw [hh, Option.some_bind] at h
      obtain ⟨jv, hlast, heq⟩ := Option.map_eq_some'.mp h
      obtain ⟨hi, hj⟩ := Prod.mk.inj heq
      subst hi
      subst hj
      have hmemi : iv ∈ (occursIdx opat s).filter
          (fun i => (occursIdx htmlClosePat s).any (fun j => i + opat.length ≤ j)) :=
        List.mem_of_mem_head? (Option.mem_def.mpr hh)
      have hmemj : jv ∈ (occursIdx htmlClosePat s).filter (fun j => iv + opat.length ≤ j) :=
        mem_of_getLast?_eq_some hlast
      have hji := List.mem_filter.mp hmemj
      refine ⟨mem_occursIdx _ _ _ (List.mem_filter.mp hmemi).1,
              mem_occursIdx _ _ _ hji.1, ?_⟩
      exact of_decide_eq_true hji.2

theorem ciMatch_isSome (opat s : List Char) (i j : Nat)
    (hi : i ∈ occursIdx opat s) (hj : j ∈ occursIdx htmlClosePat s)
    (hle : i + opat.length ≤ j) : (ciMatch opat s).isSome = true := by
  unfold ciMatch
  have hfi : i ∈ (occursIdx opat s).filter
      (fun i => (occursIdx htmlClosePat s).any (fun j => i + opat.length ≤ j)) := by
    refine List.mem_filter.mpr ⟨hi, ?_⟩
    simp only [List.any_eq_true, decide_eq_true_eq]
    exact ⟨j, hj, hle⟩
  cases hh : ((occursIdx opat s).filter
      (fun i => (occursIdx htmlClosePat s).any (fun j => i + opat.length ≤ j))).head? with
  | none =>
      exfalso
      have hne := List.ne_nil_of_mem hfi
      rw [List.head?_eq_none_iff] at hh
      exact hne hh
  | some i0 =>
      rw [Option.some_bind]
      have hi0 : i0 ∈ (occursIdx opat s).filter
          (fun i => (occursIdx htmlClosePat s).any (fun j => i + opat.length ≤ j)) :=
        List.mem_of_mem_head? (Option.mem_def.mpr hh)
      have hany := (List.mem_filter.mp hi0).2
      simp only [List.any_eq_true, decide_eq_true_eq] at hany
      obtain ⟨j0, hj0, hle0⟩ := hany
      have hfj0 : j0 ∈ (occursIdx htmlClosePat s).filter (fun j => i0 + opat.length ≤ j) :=
        List.mem_filter.mpr ⟨hj0, by simpa using hle0⟩
      obtain ⟨j1, hj1⟩ := Option.isSome_iff_exists.mp
        (List.getLast?_isSome.mpr (List.ne_nil_of_mem hfj0))
      rw [hj1]
      rfl

/-- Claim C5 (amended): on the given DOCTYPE-wrapped input the extraction
returns exactly the DOCTYPE-to-`</html>` span; on an input with no
DOCTYPE occurrence any extracted result is the `<html`-to-`</html>` match
with a DOCTYPE line prepended; and on an input with no `<html` tag and no
`<!DOCTYPE html>` occurrence the extraction returns absent. -/
theorem claim_C5 :
    extractHtmlFromOutput "blah <!DOCTYPE html><html><body>x</body></html> blah"
      = some "<!DOCTYPE html><html><body>x</body></html>"
    ∧ extractHtmlFromOutput "note <html><b>y</b></html> tail"
      = some "<!DOCTYPE html>\n<html><b>y</b></html>"
    ∧ (∀ s r : String, occursIdx doctypePat s.data = [] →
        extractHtmlFromOutput s = some r →
        ∃ i j : Nat,
          isPrefCI htmlOpenPat (s.data.drop i) = true
          ∧ isPrefCI htmlClosePat (s.data.drop j) = true
          ∧ i + htmlOpenPat.length ≤ j
          ∧ r.data = "<!DOCTYPE html>\n".data
              ++ (s.data.drop i).take (j + htmlClosePat.length - i))
    ∧ (∀ (s : String) (i j : Nat), occursIdx doctypePat s.data = [] →
        i ∈ occursIdx htmlOpenPat s.data → j ∈ occursIdx htmlClosePat s.data →
        i + htmlOpenPat.length ≤ j → (extractHtmlFromOutput s).isSome = true)
    ∧ (∀ s : String, occursIdx htmlOpenPat s.data = [] →
        occursIdx doctypePat s.data = [] → extractHtmlFromOutput s = none) := by
  refine ⟨by decide, by decide, ?_, ?_, ?_⟩
  · intro s r hd hx
    unfold extractHtmlFromOutput at hx
    obtain ⟨l, hl, hmk⟩ := Option.map_eq_some'.mp hx
    unfold extractHtmlL at hl
    rw [ciMatch_none_of_no_open _ _ hd] at hl
    cases hm : ciMatch htmlOpenPat s.data with
    | none =>
        rw [hm] at hl
        simp at hl
    | some ij =>
        obtain ⟨i, j⟩ := ij
        rw [hm] at hl
        have hlv : l = "<!DOCTYPE html>\n".data ++ matchedText s.data (i, j) :=
          (Option.some.inj hl).symm
        obtain ⟨hpo, hpc, hij⟩ := ciMatch_spec _ _ _ _ hm
        refine ⟨i, j, hpo, hpc, hij, ?_⟩
        rw [← hmk]
        show (String.mk l).data = _
        rw [hlv]
        rfl
  · intro s i j hd hi hj hle
    have hsome := ciMatch_isSome htmlOpenPat s.data i j hi hj hle
    unfold extractHtmlFromOutput extractHtmlL
    rw [ciMatch_none_of_no_open _ _ hd]
    cases hm : ciMatch htmlOpenPat s.data with
    | none =>
        rw [hm] at hsome
        simp at hsome
    | some ij => simp
  · intro s h1 h2
    unfold extractHtmlFromOutput extractHtmlL
    rw [ciMatch_none_of_no_open _ _ h2, ciMatch_none_of_no_open _ _ h1]
    rfl

/-- Counterexample to claim C5 as stated: an input with no `<html` tag at
all on which extraction still returns a document — the DOCTYPE branch of
the code does not require an `<html` tag. -/
theorem claim_C5_counterexample :
    occursIdx htmlOpenPat "<!DOCTYPE html>hello</html>".data = []
    ∧ extractHtmlFromOutput "<!DOCTYPE html>hello</html>" ≠ none := by
  exact ⟨by decide, by decide⟩

/-- Witness for claim C5 on an input with neither tag nor DOCTYPE. -/
theorem claim_C5_witness :
    extractHtmlFromOutput "no angle brackets" = none :=
  claim_C5.2.2.2.2 "no angle brackets" (by decide) (by decide)

end OutreachPlanner
